import Mathlib

/-!
Verification of the GreynirCorrect annotation core: a shallow embedding of
`src/reynir_correct/checker.py` (`GreynirCorrect.annotate`) and
`src/reynir_correct/wrappers.py` (result assembly and the four output
formatters), with theorems settling the specification's claims.

Modelling conventions:
* Python token/annotation objects become Lean structures.
* Machine integers are `Nat`/`Int`; Python's float division in the
  language-ratio test is modelled over `ℚ` (the values involved are exact
  small rationals); float *rendering* (`"{:.2f}"` on readability scores,
  numeric token values) is modelled by carrying the rendered text, since
  only the rendered text is observable in the outputs studied here.
* Functions imported from external packages (reynir's `correct_spaces`,
  tokenizer's `detokenize`/`text_from_tokens`, the `Error`/`Annotation`
  string renderers of modules outside the studied sources, `json.dumps`)
  are parameters, bundled in the `Externals` structure.
* The outputs appended by the external `ErrorFinder` and `PatternMatcher`
  components are parameters of `annotate` (the spec leaves their rule sets
  unspecified; they append arbitrary annotation values).
* Python exceptions become `Except String`.
-/

set_option maxHeartbeats 1000000

/- Token-kind codes of the external tokenizer package (`tokenizer.TOK`).
Only their mutual distinctness is relevant to the studied code. -/
namespace TOK

def PUNCTUATION : Nat := 1
def TIME : Nat := 2
def DATE : Nat := 3
def YEAR : Nat := 4
def NUMBER : Nat := 5
def WORD : Nat := 6
def TELNO : Nat := 7
def PERCENT : Nat := 8
def URL : Nat := 9
def ORDINAL : Nat := 10
def TIMESTAMP : Nat := 11
def CURRENCY : Nat := 12
def AMOUNT : Nat := 13
def PERSON : Nat := 14
def EMAIL : Nat := 15
def ENTITY : Nat := 16
def UNKNOWN : Nat := 17
def DATEABS : Nat := 18
def DATEREL : Nat := 19
def TIMESTAMPABS : Nat := 20
def TIMESTAMPREL : Nat := 21
def MEASUREMENT : Nat := 22
def NUMWLETTER : Nat := 23
def S_BEGIN : Nat := 11001
def S_END : Nat := 11002

end TOK

/-- The error marker optionally attached to a token by the external
spelling pipeline (`CorrectToken`'s `error_code`, `error_description`,
`error_detail`, `error_original`, `error_suggest`, `error_span`). -/
structure TokError where
  code : String
  description : String
  detail : Option String := none
  original : Option String := none
  suggest : Option String := none
  span : Nat := 1
deriving Repr, DecidableEq, Inhabited

/-- The `val` payload of a token. For WORD/PERSON/ENTITY tokens this is the
morphological meaning list (only its emptiness is observed); numeric values
(Python floats) are carried as their rendered text together with a zero flag
(Python truthiness of `0.0`), since only rendering and truthiness are
observable in the studied code. -/
inductive TokVal where
  | noneV
  | meanings (n : Nat)
  | numberV (isZero : Bool) (render : String)
  | amountV (render : String) (iso : String)
  | punctV (s : String)
  | seqV (parts : List String)
  | strV (s : String)
deriving Repr, DecidableEq, Inhabited

/-- Python truthiness of a token value (`if t.val:`). -/
def TokVal.truthy : TokVal → Bool
  | .noneV => false
  | .meanings n => n != 0
  | .numberV z _ => !z
  | .amountV _ _ => true
  | .punctV s => s != ""
  | .seqV l => !l.isEmpty
  | .strV s => s != ""

/-- A corrected token as produced by the external spelling pipeline.
`hasTerminal` models whether the token's index appears in the sentence's
token-to-terminal map; `suggMismatch` models the outcome of the external
`suggestion_does_not_match` check on that terminal (`none` models the
`AttributeError` soft-failure branch, which keeps the annotation). -/
structure CorrectToken where
  kind : Nat
  txt : String
  original : Option String := none
  val : TokVal := .noneV
  error : Option TokError := none
  hasTerminal : Bool := false
  suggMismatch : Option Bool := none
deriving Repr, DecidableEq, Inhabited

/-- The `punctuation` accessor of punctuation tokens (external; the
normalized punctuation string carried in the token value). -/
def CorrectToken.punctuation (t : CorrectToken) : String :=
  match t.val with
  | .punctV s => s
  | _ => t.txt

/-- An annotation value (fields of the `Annotation` class as constructed and
read by the studied code). `suggestlist` lives in the external annotation
module and is observable here only through string interpolation in the CSV
format, so it is carried as its rendered text (`"None"` by default, matching
a Python `None` attribute). -/
structure Annotation where
  start : Nat
  «end» : Nat
  code : String
  text : String
  detail : Option String := none
  original : Option String := none
  suggest : Option String := none
  suggestlist : String := "None"
deriving Repr, DecidableEq, Inhabited

/-- A sentence as seen by `GreynirCorrect.annotate`: its token sequence,
whether `sent.deep_tree is not None`, and the parse-failure index. -/
structure Sentence where
  tokens : List CorrectToken
  parsed : Bool
  err_index : Option Nat := none
deriving Repr, DecidableEq, Inhabited

/-! ### checker.py: `GreynirCorrect.annotate` -/

/-- Number of space characters in a string (`t.txt.count(" ")`). -/
def countSpaces (s : String) : Nat := s.data.countP (fun c => c = ' ')

/-- One step of the recognized/unrecognized word count of `annotate`
(`words_in_bin`, `words_not_in_bin`). -/
def countStep (acc : Nat × Nat) (t : CorrectToken) : Nat × Nat :=
  if t.kind = TOK.WORD then
    (if t.val.truthy then (acc.1 + 1, acc.2) else (acc.1, acc.2 + 1))
  else if t.kind = TOK.PERSON then (acc.1 + 1, acc.2)
  else if t.kind = TOK.ENTITY then (acc.1, acc.2 + (countSpaces t.txt + 1))
  else acc

/-- `(words_in_bin, words_not_in_bin)` over the sentence's tokens. -/
def countWords (toks : List CorrectToken) : Nat × Nat :=
  toks.foldl countStep (0, 0)

/-- Whether the token-level annotation survives the grammatical-suggestion
check (the `annotate` flag of the loop body): suppressed only when the
sentence parsed, the token maps to a terminal, and the external check
reports a mismatch; the `AttributeError` soft failure keeps it. -/
def keepTok (parsed : Bool) (t : CorrectToken) : Bool :=
  if parsed && t.hasTerminal then
    match t.suggMismatch with
    | some true => false
    | _ => true
  else true

/-- The token-level pass of `annotate`: one annotation per token whose
`error_code` is truthy and which survives the suggestion check, with
`end = start + error_span - 1`. -/
def tokAnnsGo (parsed : Bool) : Nat → List CorrectToken → List Annotation
  | _, [] => []
  | ix, t :: ts =>
    let rest := tokAnnsGo parsed (ix + 1) ts
    match t.error with
    | none => rest
    | some e =>
      if e.code = "" then rest
      else if keepTok parsed t then
        { start := ix, «end» := ix + e.span - 1, code := e.code,
          text := e.description, detail := e.detail,
          original := e.original, suggest := e.suggest } :: rest
      else rest

/-- `100 * num / den` rounded to the nearest integer, ties to even: the
value rendered by Python's `"{0:.0f}".format(num / den * 100.0)` (up to the
binary-float representation of the quotient, immaterial to the claims
studied). -/
def pctRound (num den : Nat) : Nat :=
  let a := 100 * num
  let q := a / den
  let r := a % den
  if 2 * r < den then q
  else if den < 2 * r then q + 1
  else if q % 2 = 0 then q else q + 1

/-- The whole-sentence E004 annotation ("probably not Icelandic"). -/
def e004Of (sent : Sentence) (words_not_in_bin num_words : Nat) : Annotation :=
  { start := 0, «end» := sent.tokens.length - 1, code := "E004",
    text := "Málsgreinin er sennilega ekki á íslensku",
    detail := some (toString (pctRound words_not_in_bin num_words)
      ++ "% orða í henni finnast ekki í íslenskri orðabók") }

/-- The whole-sentence E001 annotation for an unparsed sentence.
`cs` is the external `reynir.correct_spaces` detokenizer. The context
window is `tokens[max(0, err_index-1) : min(len(tokens), err_index+2)]`
(truncated `Nat` subtraction realizes the `max(0, ·)` clamp). -/
def e001Of (cs : String → String) (sent : Sentence) : Annotation :=
  let err_index := sent.err_index.getD 0
  let lo := err_index - 1
  let hi := min sent.tokens.length (err_index + 2)
  let window := (sent.tokens.drop lo).take (hi - lo)
  let toktext := cs (" ".intercalate
    (window.filterMap (fun t => if t.txt = "" then none else some t.txt)))
  { start := 0, «end» := sent.tokens.length - 1, code := "E001",
    text := "Málsgreinin fellur ekki að reglum",
    detail := some ("Þáttun brást í kring um " ++ toString (err_index + 1)
      ++ ". tóka (\x27" ++ toktext ++ "\x27)") }

/-- The sort key comparison of `annotate`'s final sort:
`key=lambda a: (a.start, -a.end)` — ascending start, descending end. -/
def annLe (a b : Annotation) : Bool :=
  decide (a.start < b.start) ||
    (decide (a.start = b.start) && decide (b.«end» ≤ a.«end»))

/-- Identity of `(code, start, end)` triples, the duplicate test of
`annotate`'s final deduplication scan. -/
def sameTriple (a b : Annotation) : Bool :=
  a.code == b.code && a.start == b.start && a.«end» == b.«end»

/-- Stable insertion (an element is placed before every element of
equal key), used to model Python's stable `list.sort`. -/
def insertAnn (le : Annotation → Annotation → Bool) (a : Annotation) :
    List Annotation → List Annotation
  | [] => [a]
  | b :: t =>
    if le b a && !(le a b) then b :: insertAnn le a t else a :: b :: t

/-- Stable sort by `le` (Python's `list.sort` is stable, and a stable sort's
output is uniquely determined by the key, so any stable algorithm models it). -/
def sortAnns (le : Annotation → Annotation → Bool) :
    List Annotation → List Annotation
  | [] => []
  | a :: t => insertAnn le a (sortAnns le t)

/-- Tail of the adjacent-duplicate elimination scan of `annotate`: `prev` is
the last kept element (after a deletion the loop compares the next element
against that same predecessor). -/
def dedupGo (prev : Annotation) : List Annotation → List Annotation
  | [] => []
  | b :: rest =>
    if sameTriple prev b then dedupGo prev rest else b :: dedupGo b rest

/-- The adjacent-duplicate elimination scan of `annotate` (the `while i <
len(ann)` loop): an element equal in `(code, start, end)` to its immediate
predecessor is dropped. -/
def dedupAdj : List Annotation → List Annotation
  | [] => []
  | a :: rest => a :: dedupGo a rest

/-- Step 5 of `annotate`: sort by `(start, -end)`, then drop adjacent
`(code, start, end)` duplicates. -/
def normalizeAnns (l : List Annotation) : List Annotation :=
  dedupAdj (sortAnns annLe l)

/-- `GreynirCorrect.annotate`. `thresh` is the external `ICELANDIC_RATIO`
constant (≈ 0.5); `cs` is the external `reynir.correct_spaces`;
`finderAnns` and `matcherAnns` are the annotations appended by the external
`ErrorFinder` and `PatternMatcher` on the successful-parse path. -/
def annotate (thresh : ℚ) (cs : String → String) (sent : Sentence)
    (finderAnns matcherAnns : List Annotation) : List Annotation :=
  let tok := tokAnnsGo sent.parsed 0 sent.tokens
  let w := countWords sent.tokens
  let num_words := w.1 + w.2
  let ann :=
    if 2 < num_words ∧ Rat.divInt (w.1 : Int) (num_words : Int) < thresh then
      [e004Of sent w.2 num_words]
    else if sent.parsed = false then
      tok ++ [e001Of cs sent]
    else
      tok ++ finderAnns ++ matcherAnns
  normalizeAnns ann

example :
    annotate (mkRat 1 2) (fun s => s)
      { tokens := [{ kind := TOK.WORD, txt := "abc" },
                   { kind := TOK.WORD, txt := "de" },
                   { kind := TOK.WORD, txt := "fgh" }],
        parsed := true } [] [] =
    [e004Of { tokens := [{ kind := TOK.WORD, txt := "abc" },
                         { kind := TOK.WORD, txt := "de" },
                         { kind := TOK.WORD, txt := "fgh" }],
              parsed := true } 3 3] := by decide

/-! ### Properties of the sort and deduplication steps -/

theorem annLe_total (a b : Annotation) : annLe a b = true ∨ annLe b a = true := by
  simp only [annLe, Bool.or_eq_true, Bool.and_eq_true, decide_eq_true_eq]
  omega

theorem annLe_trans (a b c : Annotation) (h1 : annLe a b = true)
    (h2 : annLe b c = true) : annLe a c = true := by
  simp only [annLe, Bool.or_eq_true, Bool.and_eq_true, decide_eq_true_eq] at h1 h2 ⊢
  omega

theorem mem_insertAnn {le : Annotation → Annotation → Bool} {a x : Annotation} :
    ∀ {l : List Annotation}, x ∈ insertAnn le a l ↔ x = a ∨ x ∈ l
  | [] => by simp [insertAnn]
  | b :: t => by
    unfold insertAnn
    split
    · simp only [List.mem_cons, mem_insertAnn (l := t)]
      tauto
    · simp only [List.mem_cons]

theorem insertAnn_perm (le : Annotation → Annotation → Bool) (a : Annotation) :
    ∀ l : List Annotation, List.Perm (insertAnn le a l) (a :: l)
  | [] => List.Perm.refl _
  | b :: t => by
    unfold insertAnn
    split
    · exact ((insertAnn_perm le a t).cons b).trans (List.Perm.swap a b t)
    · exact List.Perm.refl _

theorem sortAnns_perm (le : Annotation → Annotation → Bool) :
    ∀ l : List Annotation, List.Perm (sortAnns le l) l
  | [] => List.Perm.refl _
  | a :: t => (insertAnn_perm le a _).trans ((sortAnns_perm le t).cons a)

theorem insertAnn_pairwise (le : Annotation → Annotation → Bool)
    (htot : ∀ x y, le x y = true ∨ le y x = true)
    (htrans : ∀ x y z, le x y = true → le y z = true → le x z = true)
    (a : Annotation) :
    ∀ l : List Annotation, l.Pairwise (fun x y => le x y = true) →
      (insertAnn le a l).Pairwise (fun x y => le x y = true)
  | [], _ => by
    unfold insertAnn
    exact List.pairwise_singleton _ a
  | b :: t, h => by
    rw [List.pairwise_cons] at h
    obtain ⟨hb, ht⟩ := h
    unfold insertAnn
    split
    · next hc =>
      rw [Bool.and_eq_true, Bool.not_eq_true', Bool.eq_false_iff] at hc
      rw [List.pairwise_cons]
      refine ⟨fun x hx => ?_, insertAnn_pairwise le htot htrans a t ht⟩
      rcases mem_insertAnn.mp hx with rfl | hx
      · exact hc.1
      · exact hb x hx
    · next hc =>
      rw [Bool.and_eq_true, Bool.not_eq_true', Bool.eq_false_iff, not_and, not_not] at hc
      have hab : le a b = true := by
        rcases htot a b with h | h
        · exact h
        · exact hc h
      rw [List.pairwise_cons]
      refine ⟨fun x hx => ?_, List.pairwise_cons.mpr ⟨hb, ht⟩⟩
      rcases List.mem_cons.mp hx with rfl | hx
      · exact hab
      · exact htrans a b x hab (hb x hx)

theorem sortAnns_pairwise (le : Annotation → Annotation → Bool)
    (htot : ∀ x y, le x y = true ∨ le y x = true)
    (htrans : ∀ x y z, le x y = true → le y z = true → le x z = true) :
    ∀ l : List Annotation, (sortAnns le l).Pairwise (fun x y => le x y = true)
  | [] => List.Pairwise.nil
  | a :: t =>
    insertAnn_pairwise le htot htrans a _ (sortAnns_pairwise le htot htrans t)

theorem dedupGo_sublist (p : Annotation) :
    ∀ l : List Annotation, List.Sublist (dedupGo p l) l
  | [] => List.Sublist.slnil
  | b :: t => by
    unfold dedupGo
    split
    · exact (dedupGo_sublist p t).trans (List.sublist_cons_self b t)
    · exact (dedupGo_sublist b t).cons₂ b

theorem dedupAdj_sublist : ∀ l : List Annotation, List.Sublist (dedupAdj l) l
  | [] => List.Sublist.slnil
  | a :: t => (dedupGo_sublist a t).cons₂ a

theorem dedupGo_chain (p : Annotation) :
    ∀ l : List Annotation,
      List.Chain (fun x y => sameTriple x y = false) p (dedupGo p l)
  | [] => List.Chain.nil
  | b :: t => by
    unfold dedupGo
    split
    · exact dedupGo_chain p t
    · next h =>
      exact List.Chain.cons (Bool.eq_false_iff.mpr h) (dedupGo_chain b t)

theorem dedupAdj_chain' :
    ∀ l : List Annotation, (dedupAdj l).Chain' (fun x y => sameTriple x y = false)
  | [] => trivial
  | a :: t => dedupGo_chain a t

theorem dedupGo_eq_self (p : Annotation) :
    ∀ l : List Annotation,
      List.Chain (fun x y => sameTriple x y = false) p l → dedupGo p l = l
  | [], _ => rfl
  | b :: t, h => by
    rcases h with _ | ⟨hrel, htail⟩
    show (if sameTriple p b then dedupGo p t else b :: dedupGo b t) = b :: t
    rw [if_neg (by simp [hrel]), dedupGo_eq_self b t htail]

theorem dedupAdj_eq_self :
    ∀ l : List Annotation,
      l.Chain' (fun x y => sameTriple x y = false) → dedupAdj l = l
  | [], _ => rfl
  | a :: t, h => congrArg (a :: ·) (dedupGo_eq_self a t h)

theorem sameTriple_eq_true_iff {a b : Annotation} :
    sameTriple a b = true ↔
      a.code = b.code ∧ a.start = b.start ∧ a.«end» = b.«end» := by
  simp [sameTriple, Bool.and_eq_true, and_assoc]

theorem sameTriple_eq_false_iff {a b : Annotation} :
    sameTriple a b = false ↔
      ¬ (a.code = b.code ∧ a.start = b.start ∧ a.«end» = b.«end») := by
  rw [Bool.eq_false_iff]
  exact not_congr sameTriple_eq_true_iff

theorem sameTriple_false_symm {a b : Annotation} (h : sameTriple a b = false) :
    sameTriple b a = false := by
  rw [sameTriple_eq_false_iff] at h ⊢
  tauto

theorem mem_normalizeAnns {a : Annotation} {l : List Annotation}
    (h : a ∈ normalizeAnns l) : a ∈ l :=
  (sortAnns_perm annLe l).mem_iff.mp ((dedupAdj_sublist _).subset h)

theorem normalizeAnns_sorted (l : List Annotation) :
    (normalizeAnns l).Pairwise (fun x y => annLe x y = true) :=
  (sortAnns_pairwise annLe annLe_total annLe_trans l).sublist (dedupAdj_sublist _)

theorem normalizeAnns_chain' (l : List Annotation) :
    (normalizeAnns l).Chain' (fun x y => sameTriple x y = false) :=
  dedupAdj_chain' _

theorem normalizeAnns_perm (l : List Annotation)
    (h : l.Pairwise (fun x y => sameTriple x y = false)) :
    List.Perm (normalizeAnns l) l := by
  have hs : (sortAnns annLe l).Pairwise (fun x y => sameTriple x y = false) :=
    ((sortAnns_perm annLe l).pairwise_iff fun hxy => sameTriple_false_symm hxy).mpr h
  rw [normalizeAnns, dedupAdj_eq_self _ hs.chain']
  exact sortAnns_perm annLe l

/-! ### Claim C1 -/

/-- The three pattern-matcher annotations of the C1 counterexample: two
share span `(0, 0)` and code `"X1"` but a distinct-code annotation of the
same span sits between them in appended order. -/
def cxX : Annotation := { start := 0, «end» := 0, code := "X1", text := "m1" }

def cxY : Annotation := { start := 0, «end» := 0, code := "Y1", text := "m2" }

/-- C1 counterexample: for a parsed sentence whose external pattern matcher
appends `[X, Y, X]` with identical spans and codes `X1, Y1, X1`, the output
of `annotate` retains two annotations with the identical
`(code, start, end)` triple `("X1", 0, 0)` — the deduplication scan only
removes adjacent duplicates, and the interleaved distinct code keeps the
two `X1` annotations non-adjacent after the stable sort. -/
theorem C1_counterexample :
    ¬ (annotate (mkRat 1 2) (fun s => s) { tokens := [], parsed := true } []
        [cxX, cxY, cxX]).Pairwise
      (fun a b => ¬ (a.code = b.code ∧ a.start = b.start ∧ a.«end» = b.«end»)) := by
  decide

/-- C1 (amended): for every sentence the annotation list returned by
`annotate` is sorted by `(start, -end)`, and no two *adjacent* annotations
share an identical `(code, start, end)` triple (duplicates are removed only
when the preceding sort makes them adjacent; annotations of equal span with
interleaved distinct codes may retain identical triples non-adjacently). -/
theorem C1_sorted_and_adjacent_dedup (thresh : ℚ) (cs : String → String)
    (sent : Sentence) (finderAnns matcherAnns : List Annotation) :
    (annotate thresh cs sent finderAnns matcherAnns).Pairwise
      (fun a b => annLe a b = true) ∧
    (annotate thresh cs sent finderAnns matcherAnns).Chain'
      (fun a b => sameTriple a b = false) :=
  ⟨normalizeAnns_sorted _, normalizeAnns_chain' _⟩

/-! ### Claim C2 -/

/-- C2: for every sentence whose word-like token count exceeds 2 and whose
recognized fraction lies below the Icelandic-ratio threshold, `annotate`
discards all token-level annotations and returns exactly one annotation,
code `E004`, spanning the whole sentence (start 0, end = last token index),
whose detail states the unrecognized percentage — regardless of the
token-level and pattern annotations that existed beforehand. -/
theorem C2_language_ratio (thresh : ℚ) (cs : String → String) (sent : Sentence)
    (finderAnns matcherAnns : List Annotation)
    (h1 : 2 < (countWords sent.tokens).1 + (countWords sent.tokens).2)
    (h2 : Rat.divInt ((countWords sent.tokens).1 : Int)
        (((countWords sent.tokens).1 + (countWords sent.tokens).2 : Nat) : Int)
        < thresh) :
    annotate thresh cs sent finderAnns matcherAnns =
      [e004Of sent (countWords sent.tokens).2
        ((countWords sent.tokens).1 + (countWords sent.tokens).2)] ∧
    (e004Of sent (countWords sent.tokens).2
        ((countWords sent.tokens).1 + (countWords sent.tokens).2)).code = "E004" ∧
    (e004Of sent (countWords sent.tokens).2
        ((countWords sent.tokens).1 + (countWords sent.tokens).2)).start = 0 ∧
    (e004Of sent (countWords sent.tokens).2
        ((countWords sent.tokens).1 + (countWords sent.tokens).2)).«end» =
      sent.tokens.length - 1 := by
  refine ⟨?_, rfl, rfl, rfl⟩
  simp only [annotate]
  rw [if_pos ⟨h1, h2⟩]
  rfl

/-- A sentence of three unrecognized WORD tokens, for the C2 witness. -/
def c2sent : Sentence :=
  { tokens := [{ kind := TOK.WORD, txt := "alpha" },
               { kind := TOK.WORD, txt := "beta" },
               { kind := TOK.WORD, txt := "gamma" }],
    parsed := true }

theorem C2_language_ratio_witness :
    (2 < (countWords c2sent.tokens).1 + (countWords c2sent.tokens).2) ∧
    (Rat.divInt ((countWords c2sent.tokens).1 : Int)
        (((countWords c2sent.tokens).1 + (countWords c2sent.tokens).2 : Nat) : Int)
      < mkRat 1 2) ∧
    annotate (mkRat 1 2) (fun s => s) c2sent [] [] = [e004Of c2sent 3 3] :=
  ⟨by decide, by decide,
    ((C2_language_ratio (mkRat 1 2) (fun s => s) c2sent [] []
        (by decide) (by decide)).1).trans (by decide)⟩

/-! ### Token-level pass lemmas -/

/-- `true` iff no token of the list carries an error marker with code `c`
(the module reserves E001–E004 for whole-sentence annotations; token-level
codes come from the external spelling pipeline). -/
def noCode (c : String) (toks : List CorrectToken) : Bool :=
  toks.all (fun t =>
    match t.error with
    | none => true
    | some e => e.code != c)

/-- Well-formedness of the error spans reported by the external spelling
pipeline, relative to position `ix` in a sentence of `total` tokens: every
span is at least 1 and stays inside the sentence. -/
def spansOkFrom (total : Nat) : Nat → List CorrectToken → Bool
  | _, [] => true
  | ix, t :: ts =>
    (match t.error with
     | none => true
     | some e => decide (1 ≤ e.span) && decide (ix + e.span ≤ total)) &&
    spansOkFrom total (ix + 1) ts

def spansOk (toks : List CorrectToken) : Bool := spansOkFrom toks.length 0 toks

/-- Every annotation of the externally supplied list has a span inside a
sentence of `len` tokens. -/
def annsInBounds (len : Nat) (l : List Annotation) : Bool :=
  l.all (fun a => decide (a.start ≤ a.«end») && decide (a.«end» < len))

theorem tokAnnsGo_start_ge (p : Bool) :
    ∀ (toks : List CorrectToken) (ix : Nat),
      ∀ a ∈ tokAnnsGo p ix toks, ix ≤ a.start
  | [], _, _, ha => absurd ha (List.not_mem_nil _)
  | t :: ts, ix, a, ha => by
    simp only [tokAnnsGo] at ha
    have step : ∀ b ∈ tokAnnsGo p (ix + 1) ts, ix ≤ b.start := fun b hb =>
      Nat.le_of_succ_le (tokAnnsGo_start_ge p ts (ix + 1) b hb)
    split at ha
    · exact step a ha
    · split at ha
      · exact step a ha
      · split at ha
        · rcases List.mem_cons.mp ha with rfl | ha
          · exact Nat.le_refl _
          · exact step a ha
        · exact step a ha

theorem tokAnnsGo_pairwise (p : Bool) :
    ∀ (toks : List CorrectToken) (ix : Nat),
      (tokAnnsGo p ix toks).Pairwise (fun a b => a.start < b.start)
  | [], _ => List.Pairwise.nil
  | t :: ts, ix => by
    simp only [tokAnnsGo]
    have tail := tokAnnsGo_pairwise p ts (ix + 1)
    have head : ∀ b ∈ tokAnnsGo p (ix + 1) ts, ix < b.start := fun b hb =>
      tokAnnsGo_start_ge p ts (ix + 1) b hb
    split
    · exact tail
    · split
      · exact tail
      · split
        · exact List.pairwise_cons.mpr ⟨head, tail⟩
        · exact tail

theorem tokAnnsGo_codes (c : String) (p : Bool) :
    ∀ (toks : List CorrectToken) (ix : Nat), noCode c toks = true →
      ∀ a ∈ tokAnnsGo p ix toks, a.code ≠ c
  | [], _, _, _, ha => absurd ha (List.not_mem_nil _)
  | t :: ts, ix, h, a, ha => by
    rw [noCode, List.all_cons, Bool.and_eq_true] at h
    obtain ⟨h1, h2⟩ := h
    simp only [tokAnnsGo] at ha
    have step := tokAnnsGo_codes c p ts (ix + 1) h2 a
    split at ha
    · exact step ha
    · next e heq =>
      simp only [heq, bne_iff_ne] at h1
      split at ha
      · exact step ha
      · split at ha
        · rcases List.mem_cons.mp ha with rfl | ha
          · exact h1
          · exact step ha
        · exact step ha

theorem tokAnnsGo_bounds (p : Bool) :
    ∀ (toks : List CorrectToken) (ix total : Nat),
      spansOkFrom total ix toks = true →
      ∀ a ∈ tokAnnsGo p ix toks,
        ix ≤ a.start ∧ a.start ≤ a.«end» ∧ a.«end» < total
  | [], _, _, _, _, ha => absurd ha (List.not_mem_nil _)
  | t :: ts, ix, total, h, a, ha => by
    rw [spansOkFrom, Bool.and_eq_true] at h
    obtain ⟨h1, h2⟩ := h
    simp only [tokAnnsGo] at ha
    have step : ∀ b ∈ tokAnnsGo p (ix + 1) ts,
        ix ≤ b.start ∧ b.start ≤ b.«end» ∧ b.«end» < total := fun b hb => by
      have := tokAnnsGo_bounds p ts (ix + 1) total h2 b hb
      exact ⟨Nat.le_of_succ_le this.1, this.2⟩
    split at ha
    · exact step a ha
    · next e heq =>
      simp only [heq, Bool.and_eq_true, decide_eq_true_eq] at h1
      split at ha
      · exact step a ha
      · split at ha
        · rcases List.mem_cons.mp ha with rfl | ha
          · refine ⟨Nat.le_refl _, ?_, ?_⟩
            · show ix ≤ ix + e.span - 1
              omega
            · show ix + e.span - 1 < total
              omega
          · exact step a ha
        · exact step a ha

/-! ### Claim C3 -/

/-- C3: for every unparsed sentence (that does not trip the language-ratio
heuristic, and whose token-level error codes do not collide with the
reserved code E001), the output of `annotate` is a permutation of the
surviving token-level annotations plus exactly one whole-sentence E001
annotation (start 0, end = last token index) whose detail names the ±1
context window around the reported failure index, clamped to the sentence
bounds (built into `e001Of`). -/
theorem C3_parse_failure (thresh : ℚ) (cs : String → String) (sent : Sentence)
    (finderAnns matcherAnns : List Annotation)
    (hp : sent.parsed = false)
    (hl : ¬ (2 < (countWords sent.tokens).1 + (countWords sent.tokens).2 ∧
        Rat.divInt ((countWords sent.tokens).1 : Int)
          (((countWords sent.tokens).1 + (countWords sent.tokens).2 : Nat) : Int)
          < thresh))
    (hc : noCode "E001" sent.tokens = true) :
    List.Perm (annotate thresh cs sent finderAnns matcherAnns)
      (tokAnnsGo false 0 sent.tokens ++ [e001Of cs sent]) ∧
    (annotate thresh cs sent finderAnns matcherAnns).countP
      (fun a => a.code == "E001") = 1 ∧
    (e001Of cs sent).start = 0 ∧
    (e001Of cs sent).«end» = sent.tokens.length - 1 ∧
    (e001Of cs sent).code = "E001" := by
  have key : annotate thresh cs sent finderAnns matcherAnns =
      normalizeAnns (tokAnnsGo false 0 sent.tokens ++ [e001Of cs sent]) := by
    simp only [annotate]
    rw [if_neg hl, if_pos hp, hp]
  have hcodes := tokAnnsGo_codes "E001" false sent.tokens 0 hc
  have hpw : (tokAnnsGo false 0 sent.tokens ++ [e001Of cs sent]).Pairwise
      (fun x y => sameTriple x y = false) := by
    rw [List.pairwise_append]
    refine ⟨(tokAnnsGo_pairwise false sent.tokens 0).imp ?_, List.pairwise_singleton _ _, ?_⟩
    · intro a b hlt
      rw [sameTriple_eq_false_iff]
      rintro ⟨-, hstart, -⟩
      omega
    · intro a ha b hb
      rw [List.mem_singleton] at hb
      subst hb
      rw [sameTriple_eq_false_iff]
      rintro ⟨hcode, -, -⟩
      exact hcodes a ha hcode
  have hperm := key ▸ normalizeAnns_perm _ hpw
  refine ⟨hperm, ?_, rfl, rfl, rfl⟩
  rw [hperm.countP_eq, List.countP_append]
  have h0 : (tokAnnsGo false 0 sent.tokens).countP (fun a => a.code == "E001") = 0 :=
    List.countP_eq_zero.mpr fun a ha => by
      simpa using hcodes a ha
  rw [h0]
  rfl

/-- A one-token unparsed sentence for the C3 witness. -/
def c3sent : Sentence :=
  { tokens := [{ kind := TOK.PUNCTUATION, txt := "." }], parsed := false }

theorem C3_parse_failure_witness :
    (c3sent.parsed = false) ∧ (noCode "E001" c3sent.tokens = true) ∧
    annotate (mkRat 1 2) (fun s => s) c3sent [] [] =
      [e001Of (fun s => s) c3sent] ∧
    (annotate (mkRat 1 2) (fun s => s) c3sent [] []).countP
      (fun a => a.code == "E001") = 1 :=
  ⟨by decide, by decide, by decide,
    (C3_parse_failure (mkRat 1 2) (fun s => s) c3sent [] []
      (by decide) (by decide) (by decide)).2.1⟩

/-! ### Claim C9 -/

/-- C9: every annotation produced by `annotate` — the token-level
annotations with `end = start + error_span - 1`, the whole-sentence
E001/E004 annotations, and whatever the external tree walker and pattern
matcher contribute within bounds — satisfies `0 ≤ start ≤ end < token
count`, provided the externally supplied spans are well-formed and the
sentence is nonempty (`start ≥ 0` holds by the `Nat` type of `start`). -/
theorem C9_span_invariant (thresh : ℚ) (cs : String → String) (sent : Sentence)
    (finderAnns matcherAnns : List Annotation)
    (hne : sent.tokens ≠ [])
    (hs : spansOk sent.tokens = true)
    (hf : annsInBounds sent.tokens.length finderAnns = true)
    (hm : annsInBounds sent.tokens.length matcherAnns = true) :
    ∀ a ∈ annotate thresh cs sent finderAnns matcherAnns,
      a.start ≤ a.«end» ∧ a.«end» < sent.tokens.length := by
  intro a ha
  have hlen : 0 < sent.tokens.length := List.length_pos.mpr hne
  simp only [annotate] at ha
  have hx := mem_normalizeAnns ha
  have hbounds := tokAnnsGo_bounds sent.parsed sent.tokens 0 sent.tokens.length hs
  have hext : ∀ {l : List Annotation}, annsInBounds sent.tokens.length l = true →
      a ∈ l → a.start ≤ a.«end» ∧ a.«end» < sent.tokens.length := by
    intro l hl hal
    rw [annsInBounds, List.all_eq_true] at hl
    have := hl a hal
    rw [Bool.and_eq_true, decide_eq_true_eq, decide_eq_true_eq] at this
    exact this
  split at hx
  · rw [List.mem_singleton] at hx
    subst hx
    refine ⟨Nat.zero_le _, ?_⟩
    show sent.tokens.length - 1 < sent.tokens.length
    omega
  · split at hx
    · rcases List.mem_append.mp hx with h | h
      · exact (hbounds a h).2
      · rw [List.mem_singleton] at h
        subst h
        refine ⟨Nat.zero_le _, ?_⟩
        show sent.tokens.length - 1 < sent.tokens.length
        omega
    · rcases List.mem_append.mp hx with h | h
      · rcases List.mem_append.mp h with h | h
        · exact (hbounds a h).2
        · exact hext hf h
      · exact hext hm h

/-- A two-token unparsed sentence whose first token carries a span-1 error
marker, for the C9 witness. -/
def c9sent : Sentence :=
  { tokens := [{ kind := TOK.WORD, txt := "abc",
                 error := some { code := "S001", description := "d" } },
               { kind := TOK.WORD, txt := "xyz", val := .meanings 1 }],
    parsed := false }

theorem C9_span_invariant_witness :
    (c9sent.tokens ≠ []) ∧ (spansOk c9sent.tokens = true) ∧
    ∀ a ∈ annotate (mkRat 1 2) (fun s => s) c9sent [] [],
      a.start ≤ a.«end» ∧ a.«end» < c9sent.tokens.length :=
  ⟨by decide, by decide,
    C9_span_invariant (mkRat 1 2) (fun s => s) c9sent [] []
      (by decide) (by decide) (by decide) (by decide)⟩

/-! ### wrappers.py: data model -/

/-- A terminal of a successfully parsed sentence, as read by the formatter
(`t.index`, `t.text`). -/
structure Terminal where
  index : Nat
  text : String
deriving Repr, DecidableEq, Inhabited

/-- The `CorrectedSentence` dataclass. -/
structure CorrectedSentence where
  tokens : List CorrectToken
  annotations : Option (List Annotation) := none
  terminals : Option (List Terminal) := none
deriving Repr, DecidableEq, Inhabited

/-- The `ParseResultStats` dataclass (float statistics carried as their
rendered text). -/
structure ParseResultStats where
  num_sentences : Nat
  num_parsed : Nat
  num_tokens : Nat
  ambiguity : String
  parse_time : String
deriving Repr, DecidableEq, Inhabited

/-- The `CorrectionResult` dataclass. The Flesch score and rare-word
probabilities (floats) are carried as their rendered text, which is all the
studied code reads of them. -/
structure CorrectionResult where
  sentences : List CorrectedSentence
  parse_result_stats : Option ParseResultStats := none
  flesch_result : Option (String × String) := none
  rare_words : Option (List (String × String)) := none
deriving Repr, DecidableEq, Inhabited

/-- `CorrectedSentence.filter_annotations`: drop annotations whose code is a
member of `ignore_rules`; a sentence without an annotation list is left
untouched. -/
def CorrectedSentence.filter_annotations (s : CorrectedSentence)
    (ignore_rules : List String) : CorrectedSentence :=
  match s.annotations with
  | none => s
  | some anns =>
    { s with annotations := some (anns.filter (fun a => !(ignore_rules.contains a.code))) }

/-- `CorrectionResult.filter_annotations`: filter every sentence. -/
def CorrectionResult.filter_annotations (r : CorrectionResult)
    (ignore_rules : List String) : CorrectionResult :=
  { r with sentences := r.sentences.map (fun s => s.filter_annotations ignore_rules) }

/-! ### Claim C7 -/

/-- C7: after `filter_annotations S`, no annotation of any sentence has a
code in `S`, and every sentence's annotation list is exactly its original
list filtered to the codes outside `S` — same values, same relative order,
with annotation-less sentences untouched. -/
theorem C7_filter_annotations (res : CorrectionResult) (S : List String) :
    (res.filter_annotations S).sentences =
      res.sentences.map (fun s =>
        { s with annotations :=
            s.annotations.map (List.filter (fun a => !(S.contains a.code))) }) ∧
    ∀ s ∈ (res.filter_annotations S).sentences, ∀ l, s.annotations = some l →
      ∀ a ∈ l, S.contains a.code = false := by
  constructor
  · refine List.map_congr_left fun s _ => ?_
    obtain ⟨toks, anns, terms⟩ := s
    cases anns with
    | none => rfl
    | some l => rfl
  · intro s hs l hl a hal
    obtain ⟨s₀, -, rfl⟩ := List.mem_map.mp hs
    obtain ⟨toks, anns, terms⟩ := s₀
    cases anns with
    | none => exact absurd hl (by simp [CorrectedSentence.filter_annotations])
    | some anns0 =>
      have hl' : l = anns0.filter (fun a => !(S.contains a.code)) := by
        simpa [CorrectedSentence.filter_annotations] using hl.symm
      subst hl'
      have := (List.mem_filter.mp hal).2
      rwa [Bool.not_eq_true'] at this

/-- Concrete input for the C7 witness: one sentence with two annotations,
codes `X` and `Y`, filtering out `X`. -/
def c7a1 : Annotation := { start := 0, «end» := 0, code := "X", text := "t1" }

def c7a2 : Annotation := { start := 0, «end» := 0, code := "Y", text := "t2" }

def c7res : CorrectionResult :=
  { sentences := [{ tokens := [], annotations := some [c7a1, c7a2] }] }

theorem C7_filter_annotations_witness :
    (c7res.filter_annotations ["X"]).sentences =
      [{ tokens := [], annotations := some [c7a2] }] ∧
    (["X"].contains c7a2.code = false) :=
  ⟨by decide,
    (C7_filter_annotations c7res ["X"]).2
      { tokens := [], annotations := some [c7a2] } (by decide) [c7a2] rfl c7a2
      (by decide)⟩

/-! ### wrappers.py: the fully-corrected reconstruction of `format_grammar`

Python copies the token *list* (`full_correction_toks = sentence.tokens[:]`)
but the list elements are the very token objects owned by the sentence, so
`full_correction_toks[ann.start].txt = ann.suggest` writes through to
`sentence.tokens`, while `del full_correction_toks[...]` affects only the
copy. The embedding makes this sharing explicit: the sentence's token
objects form a store (`List CorrectToken`, one entry per object, in
sentence order), and the copied list is a list of object indices into that
store. The reconstruction returns the final store (= the state of
`sentence.tokens` after the call) and the final index list (= the spliced
copy used for the fully-corrected text). -/

/-- Replace the element at position `i` by `f` of it (out of range: no-op),
modelling an attribute write on the `i`-th heap object. -/
def modifyAt (f : CorrectToken → CorrectToken) : Nat → List CorrectToken → List CorrectToken
  | _, [] => []
  | 0, t :: ts => f t :: ts
  | i + 1, t :: ts => t :: modifyAt f i ts

/-- Python `del l[a:b]`. -/
def delSlice (a b : Nat) (l : List Nat) : List Nat := l.take a ++ l.drop b

/-- One reverse-iteration step of the reconstruction loop of
`format_grammar`: skip annotations without a suggestion; otherwise write
the suggestion into the token object at position `ann.start` of the copied
list (a write visible through the store) and, for a multi-token span,
delete positions `start+1 .. end` from the copy only. -/
def applyAnn (st : List CorrectToken × List Nat) (ann : Annotation) :
    List CorrectToken × List Nat :=
  match ann.suggest with
  | none => st
  | some s =>
    let store :=
      match st.2.get? ann.start with
      | some objId => modifyAt (fun t => { t with txt := s }) objId st.1
      | none => st.1
    let ids :=
      if ann.start < ann.«end» then delSlice (ann.start + 1) (ann.«end» + 1) st.2
      else st.2
    (store, ids)

/-- The whole reconstruction loop (`for ann in annotations[::-1]: ...`),
starting from the identity copy of the sentence's token objects. -/
def applyAll (anns : List Annotation) (store : List CorrectToken) :
    List CorrectToken × List Nat :=
  anns.reverse.foldl applyAnn (store, List.range store.length)

/-- The sort key of `format_grammar` (`key=lambda ann: (ann.start, ann.end)`). -/
def annLeSE (a b : Annotation) : Bool :=
  decide (a.start < b.start) || (decide (a.start = b.start) && decide (a.«end» ≤ b.«end»))

/-- The state of the sentence's canonical token sequence after
`format_grammar` has processed it: the store as left by the reconstruction
(annotation-less sentences never reach the reconstruction). -/
def tokensAfterFormat (s : CorrectedSentence) : List CorrectToken :=
  match s.annotations with
  | none => s.tokens
  | some anns => (applyAll (sortAnns annLeSE anns) s.tokens).1

theorem modifyAt_length (f : CorrectToken → CorrectToken) :
    ∀ (i : Nat) (l : List CorrectToken), (modifyAt f i l).length = l.length
  | 0, [] => rfl
  | _ + 1, [] => rfl
  | 0, _ :: _ => rfl
  | i + 1, _ :: ts => congrArg Nat.succ (modifyAt_length f i ts)

theorem modifyAt_getD_or (f : CorrectToken → CorrectToken) :
    ∀ (l : List CorrectToken) (j i : Nat),
      (modifyAt f j l).getD i default = l.getD i default ∨
      (modifyAt f j l).getD i default = f (l.getD i default)
  | [], 0, _ => Or.inl rfl
  | [], _ + 1, _ => Or.inl rfl
  | _ :: _, 0, 0 => Or.inr rfl
  | _ :: _, 0, _ + 1 => Or.inl rfl
  | _ :: _, _ + 1, 0 => Or.inl rfl
  | _ :: ts, j + 1, i + 1 => modifyAt_getD_or f ts j i

theorem applyAnn_store_length (st : List CorrectToken × List Nat)
    (ann : Annotation) : (applyAnn st ann).1.length = st.1.length := by
  rw [applyAnn]
  cases ann.suggest with
  | none => rfl
  | some s =>
    cases st.2.get? ann.start with
    | none => rfl
    | some objId => exact modifyAt_length _ objId st.1

theorem applyAnn_txt_or (st : List CorrectToken × List Nat) (ann : Annotation)
    (i : Nat) :
    ((applyAnn st ann).1.getD i default).txt = (st.1.getD i default).txt ∨
    ann.suggest = some (((applyAnn st ann).1.getD i default).txt) := by
  rw [applyAnn]
  cases hs : ann.suggest with
  | none => exact Or.inl rfl
  | some s =>
    cases st.2.get? ann.start with
    | none => exact Or.inl rfl
    | some objId =>
      rcases modifyAt_getD_or (fun t => { t with txt := s }) st.1 objId i with h | h
      · exact Or.inl (congrArg CorrectToken.txt h)
      · exact Or.inr (by rw [h])

theorem applyAnn_no_suggest (st : List CorrectToken × List Nat)
    (ann : Annotation) (h : ann.suggest = none) : applyAnn st ann = st := by
  rw [applyAnn, h]

theorem foldl_applyAnn_length (anns : List Annotation) :
    ∀ st : List CorrectToken × List Nat,
      (anns.foldl applyAnn st).1.length = st.1.length := by
  induction anns with
  | nil => intro st; rfl
  | cons a rest ih =>
    intro st
    rw [List.foldl_cons, ih (applyAnn st a), applyAnn_store_length]

theorem foldl_applyAnn_no_suggest (anns : List Annotation)
    (h : ∀ a ∈ anns, a.suggest = none) :
    ∀ st : List CorrectToken × List Nat, anns.foldl applyAnn st = st := by
  induction anns with
  | nil => intro st; rfl
  | cons a rest ih =>
    intro st
    rw [List.foldl_cons, applyAnn_no_suggest st a (h a (List.mem_cons_self a rest)),
      ih (fun b hb => h b (List.mem_cons_of_mem a hb)) st]

theorem foldl_applyAnn_txt_or (anns : List Annotation) :
    ∀ (st : List CorrectToken × List Nat) (i : Nat),
      ((anns.foldl applyAnn st).1.getD i default).txt = (st.1.getD i default).txt ∨
      ∃ a ∈ anns, a.suggest = some (((anns.foldl applyAnn st).1.getD i default).txt) := by
  induction anns with
  | nil => intro st i; exact Or.inl rfl
  | cons a rest ih =>
    intro st i
    rw [List.foldl_cons]
    rcases ih (applyAnn st a) i with h | ⟨b, hb, hsugg⟩
    · rw [h]
      rcases applyAnn_txt_or st a i with h2 | h2
      · exact Or.inl h2
      · exact Or.inr ⟨a, List.mem_cons_self a rest, h2⟩
    · exact Or.inr ⟨b, List.mem_cons_of_mem a hb, hsugg⟩

/-! ### Claim C5 -/

def c5t1 : CorrectToken := { kind := TOK.WORD, txt := "a" }

def c5t2 : CorrectToken := { kind := TOK.WORD, txt := "b" }

/-- A single-token annotation carrying a suggestion. -/
def c5ann : Annotation :=
  { start := 0, «end» := 0, code := "X", text := "t", suggest := some "c" }

def c5sentence : CorrectedSentence :=
  { tokens := [c5t1, c5t2], annotations := some [c5ann] }

/-- C5 counterexample: the reconstruction writes the suggestion into the
shared token object, so after `format_grammar` processes the sentence the
canonical token sequence's first token reads `"c"`, not its original
`"a"` — the claim that every token of `sentence.tokens` keeps its text is
false. -/
theorem C5_counterexample :
    ((tokensAfterFormat c5sentence).map (fun t => t.txt)) = ["c", "b"] ∧
    ¬ ((tokensAfterFormat c5sentence).map (fun t => t.txt)) =
        (c5sentence.tokens.map (fun t => t.txt)) := by
  constructor
  · decide
  · decide

/-- C5 (amended): the reconstruction copies only the token *list*: the
canonical sequence keeps its length, and is untouched when no annotation
carries a suggestion, but the token objects are shared — a token's text
after the call either equals its original text or equals the suggestion of
one of the sentence's annotations, written through the shallow copy. -/
theorem C5_canonical_sequence (s : CorrectedSentence) :
    (tokensAfterFormat s).length = s.tokens.length ∧
    ((∀ l, s.annotations = some l → ∀ a ∈ l, a.suggest = none) →
      tokensAfterFormat s = s.tokens) ∧
    ∀ i, ((tokensAfterFormat s).getD i default).txt = (s.tokens.getD i default).txt ∨
      ∃ l, s.annotations = some l ∧ ∃ a ∈ l,
        a.suggest = some (((tokensAfterFormat s).getD i default).txt) := by
  obtain ⟨toks, anns, terms⟩ := s
  cases anns with
  | none => exact ⟨rfl, fun _ => rfl, fun i => Or.inl rfl⟩
  | some l =>
    have hmem : ∀ a, a ∈ (sortAnns annLeSE l).reverse → a ∈ l := fun a ha =>
      (sortAnns_perm annLeSE l).mem_iff.mp (List.mem_reverse.mp ha)
    refine ⟨?_, ?_, ?_⟩
    · exact foldl_applyAnn_length _ _
    · intro h
      exact congrArg Prod.fst
        (foldl_applyAnn_no_suggest _ (fun a ha => h l rfl a (hmem a ha)) _)
    · intro i
      rcases foldl_applyAnn_txt_or ((sortAnns annLeSE l).reverse)
          (toks, List.range toks.length) i with h | ⟨a, ha, hs⟩
      · exact Or.inl h
      · exact Or.inr ⟨l, rfl, a, hmem a ha, hs⟩

theorem C5_canonical_sequence_witness :
    ((∀ l, ({ tokens := [c5t1, c5t2], annotations := some [] } :
          CorrectedSentence).annotations = some l → ∀ a ∈ l, a.suggest = none)) ∧
    tokensAfterFormat { tokens := [c5t1, c5t2], annotations := some [] } =
      [c5t1, c5t2] :=
  ⟨fun l hl a ha => by
      cases hl
      exact absurd ha (List.not_mem_nil a),
    ((C5_canonical_sequence
        { tokens := [c5t1, c5t2], annotations := some [] }).2.1
      (fun l hl a ha => by
        cases hl
        exact absurd ha (List.not_mem_nil a)))⟩

/-! ### wrappers.py: sentence results and the four grammar formatters -/

/-- The `AnnTokenDict` entries (`k`/`x`/`o`) built per token. -/
structure AnnTok where
  k : Nat
  x : String
  o : String
deriving Repr, DecidableEq, Inhabited

/-- The `AnnDict` built per annotation by the JSON formatter. -/
structure AnnD where
  start : Nat
  «end» : Nat
  start_char : Int
  end_char : Int
  code : String
  text : String
  detail : String
  suggest : String
deriving Repr, DecidableEq, Inhabited

/-- The `AnnResultDict` passed to `json.dumps` per sentence. -/
structure AnnRes where
  original : String
  corrected : String
  tokens : List AnnTok
  annotations : List AnnD
deriving Repr, DecidableEq, Inhabited

/-- One entry of `sentence_results` in `format_grammar` (its
`partially_corrected` field is named `part_corrected` here). -/
structure SentRes where
  original : String
  part_corrected : String
  corrected : String
  annotations : List Annotation
  tokens : List AnnTok
deriving Repr, DecidableEq, Inhabited

/-- The external functions consumed by the formatters: reynir's
`correct_spaces`, tokenizer's three detokenizers, the string renderers of
the external `Error` and annotation classes, and `json.dumps`. -/
structure Externals where
  correct_spaces : String → String
  detok : List CorrectToken → String
  text_from : List CorrectToken → String
  norm_text_from : List CorrectToken → String
  err_str : TokError → String
  err_dict : TokError → String
  ann_str : Annotation → String
  json_dump : AnnRes → String

/-- Python `d.original or d.txt` (`None` and the empty string both fall back). -/
def origOr (t : CorrectToken) : String :=
  match t.original with
  | some s => if s = "" then t.txt else s
  | none => t.txt

/-- Python `str(o)` of an optional string (`None` renders as `"None"`). -/
def pyOptStr (o : Option String) : String :=
  match o with
  | none => "None"
  | some s => s

/-- The token list of a sentence result: raw tokens when unparsed, terminal
texts (`token_map.get(ix, d.txt)`, later dict entries winning) when parsed. -/
def mkAnnToks (terminals : Option (List Terminal)) (store : List CorrectToken) :
    List AnnTok :=
  match terminals with
  | none => store.map (fun d => { k := d.kind, x := d.txt, o := origOr d })
  | some ts =>
    store.enum.map (fun p =>
      { k := p.2.kind,
        x := match ts.reverse.find? (fun t => t.index == p.1) with
             | some t => t.text
             | none => p.2.txt,
        o := origOr p.2 })

/-- `"".join(tok.original for tok in sentence.tokens if tok.original is not None)`. -/
def joinOriginals (store : List CorrectToken) : String :=
  String.join (store.filterMap (fun t => t.original))

/-- The per-sentence body of `format_grammar`: raises when the sentence has
no annotation list; otherwise sorts the annotations by `(start, end)`,
detokenizes the pre-reconstruction tokens into the partially corrected
text, runs the reconstruction (mutating the shared store), and assembles
the sentence result from the post-reconstruction store. -/
def sentResOf (ext : Externals) (s : CorrectedSentence) : Except String SentRes :=
  match s.annotations with
  | none => .error "Annotations not set in sentence which was supposedly parsed"
  | some anns0 =>
    let anns := sortAnns annLeSE anns0
    let part := ext.detok s.tokens
    let fc := applyAll anns s.tokens
    let full := fc.2.filterMap (fun i => fc.1.get? i)
    .ok { original := joinOriginals fc.1,
          part_corrected := part,
          corrected := ext.detok full,
          annotations := anns,
          tokens := mkAnnToks s.terminals fc.1 }

/-- One `A ...` line of the M2 format, exactly as interpolated by the
source: the second field is `ann.end` as stored. -/
def m2Line (ann : Annotation) : String :=
  "A " ++ toString ann.start ++ " " ++ toString ann.«end» ++ "|||" ++ ann.code
    ++ "|||" ++ pyOptStr ann.suggest ++ "|||REQUIRED|||-NONE-|||0"

/-- `format_m2`: the accumulator loop of the source (`accumul.append` per
`S` line, per `A` line, and a final empty string per sentence), joined by
newlines. -/
def format_m2 (sentence_results : List SentRes) : String :=
  let accumul := sentence_results.foldl (fun acc r =>
    let acc := acc ++ ["S " ++ " ".intercalate (r.tokens.map (fun t => t.x))]
    let acc := r.annotations.foldl (fun acc2 ann => acc2 ++ [m2Line ann]) acc
    acc ++ [""]) []
  "\n".intercalate accumul

/-- `format_csv`: one `code,original,suggest,start,end,suggestlist` line
per annotation (optional fields interpolate Python-style). -/
def format_csv (sentence_results : List SentRes) : String :=
  let accumul := sentence_results.foldl (fun acc r =>
    r.annotations.foldl (fun acc2 ann =>
      acc2 ++ [ann.code ++ "," ++ pyOptStr ann.original ++ "," ++
        pyOptStr ann.suggest ++ "," ++ toString ann.start ++ "," ++
        toString ann.«end» ++ "," ++ ann.suggestlist]) acc) []
  "\n".intercalate accumul

/-- `format_text`: the corrected sentence text, optionally followed by one
rendered line per annotation. -/
def format_text (ext : Externals) (sentence_results : List SentRes)
    (print_annotations print_all : Bool) : String :=
  let output := sentence_results.foldl (fun acc r =>
    let txt := r.corrected
    let txt :=
      if print_annotations && !print_all then
        txt ++ "\n" ++ "\n".intercalate (r.annotations.map ext.ann_str)
      else txt
    acc ++ [txt]) []
  "\n".intercalate output

/-- `len(t["o"] or t["x"] or "")`: the character length contributed by one
token to the running offset. -/
def annTokLen (t : AnnTok) : Nat :=
  if t.o ≠ "" then t.o.length else t.x.length

/-- The per-token offset table of `format_json`: one running offset per
token plus one past-the-end sentinel. -/
def offsetsFor (base : Nat) : List AnnTok → List Nat
  | [] => [base]
  | t :: ts => base :: offsetsFor (base + annTokLen t) ts

def sumLens (toks : List AnnTok) : Nat := (toks.map annTokLen).sum

/-- The `AnnDict` of one annotation: `start_char` is the table entry at
`start`; `end_char` is the table entry at `end + 1`, minus one. -/
def mkAnnD (offs : List Nat) (ann : Annotation) : AnnD :=
  { start := ann.start, «end» := ann.«end»,
    start_char := (offs.getD ann.start 0 : Int),
    end_char := (offs.getD (ann.«end» + 1) 0 : Int) - 1,
    code := ann.code, text := ann.text,
    detail := ann.detail.getD "", suggest := ann.suggest.getD "" }

/-- The sentence loop of `format_json`: the character offset runs across
sentences (it is not reset per sentence). -/
def format_json_go (ext : Externals) : Nat → List SentRes → List String
  | _, [] => []
  | offset, r :: rs =>
    let offs := offsetsFor offset r.tokens
    let line := ext.json_dump
      { original := r.original, corrected := r.corrected, tokens := r.tokens,
        annotations := r.annotations.map (mkAnnD offs) }
    line :: format_json_go ext (offset + sumLens r.tokens) rs

def format_json (ext : Externals) (sentence_results : List SentRes) : String :=
  "\n".intercalate (format_json_go ext 0 sentence_results)

/-- `format_output`: dispatch on the format string; an unrecognized format
raises. -/
def format_output (ext : Externals) (sentence_results : List SentRes)
    (format_type : String) (print_annotations print_all : Bool) :
    Except String String :=
  if format_type = "text" then
    .ok (format_text ext sentence_results print_annotations print_all)
  else if format_type = "json" then .ok (format_json ext sentence_results)
  else if format_type = "csv" then .ok (format_csv sentence_results)
  else if format_type = "m2" then .ok (format_m2 sentence_results)
  else .error ("Tried to format with invalid format: " ++ format_type)

/-- The sentence loop of `format_grammar`: one result per sentence, the
first sentence without an annotation list raising. -/
def sentResList (ext : Externals) : List CorrectedSentence → Except String (List SentRes)
  | [] => .ok []
  | s :: rest => do
    let r ← sentResOf ext s
    let rs ← sentResList ext rest
    .ok (r :: rs)

/-- `format_grammar`: build one sentence result per sentence (raising on a
missing annotation list) and dispatch to the chosen format. -/
def format_grammar (ext : Externals) (results : CorrectionResult)
    (print_annotations print_all : Bool) (format_type : String) :
    Except String String := do
  let srs ← sentResList ext results.sentences
  format_output ext srs format_type print_annotations print_all

/-! ### Claim C4 -/

theorem foldl_append_lines (f : Annotation → String) :
    ∀ (anns : List Annotation) (acc : List String),
      anns.foldl (fun acc2 ann => acc2 ++ [f ann]) acc = acc ++ anns.map f
  | [], acc => by simp
  | a :: rest, acc => by
    rw [List.foldl_cons, foldl_append_lines f rest (acc ++ [f a])]
    simp

theorem m2_accum :
    ∀ (sentence_results : List SentRes) (acc : List String),
      sentence_results.foldl (fun acc r =>
        (r.annotations.foldl (fun acc2 ann => acc2 ++ [m2Line ann])
          (acc ++ ["S " ++ " ".intercalate (r.tokens.map (fun t => t.x))]))
        ++ [""]) acc =
      acc ++ (sentence_results.map (fun r =>
        ("S " ++ " ".intercalate (r.tokens.map (fun t => t.x)))
          :: (r.annotations.map m2Line ++ [""]))).flatten
  | [], acc => by simp
  | r :: rs, acc => by
    rw [List.foldl_cons, m2_accum rs, foldl_append_lines]
    simp

/-- C4 (amended): the M2 output is one `S <space-joined token texts>` line
per sentence, then one
`A <start> <end>|||<code>|||<suggest>|||REQUIRED|||-NONE-|||0` line per
annotation — the second number is the annotation's stored (inclusive) end
token index, not `end + 1` — then a blank separator line. -/
theorem C4_m2_format (sentence_results : List SentRes) :
    format_m2 sentence_results =
      "\n".intercalate ((sentence_results.map (fun r =>
        ("S " ++ " ".intercalate (r.tokens.map (fun t => t.x)))
          :: (r.annotations.map m2Line ++ [""]))).flatten) := by
  show "\n".intercalate _ = _
  rw [m2_accum]
  simp

/-- The spec's M2 round-trip example: tokens `Hann kom í gær .` and one
annotation `{start: 1, end: 1, code: X1, suggest: kemur}`. -/
def c4res : SentRes :=
  { original := "", part_corrected := "", corrected := "",
    annotations := [{ start := 1, «end» := 1, code := "X1", text := "m",
                      suggest := some "kemur" }],
    tokens := [{ k := 6, x := "Hann", o := "Hann" }, { k := 6, x := "kom", o := "kom" },
               { k := 6, x := "í", o := "í" }, { k := 6, x := "gær", o := "gær" },
               { k := 1, x := ".", o := "." }] }

/-- C4 counterexample: on the spec's own example the `A` line reads
`A 1 1`, not the claimed `A 1 2` — `format_m2` interpolates `ann.end`
directly instead of `end + 1`. -/
theorem C4_counterexample :
    format_m2 [c4res] =
      "S Hann kom í gær .\nA 1 1|||X1|||kemur|||REQUIRED|||-NONE-|||0\n" ∧
    format_m2 [c4res] ≠
      "S Hann kom í gær .\nA 1 2|||X1|||kemur|||REQUIRED|||-NONE-|||0\n" := by
  constructor
  · decide
  · decide

/-! ### Claim C6 -/

theorem offsetsFor_getD :
    ∀ (toks : List AnnTok) (base i : Nat), i ≤ toks.length →
      (offsetsFor base toks).getD i 0 = base + sumLens (toks.take i)
  | [], base, 0, _ => by simp [offsetsFor, sumLens]
  | [], base, i + 1, h => absurd h (by simp)
  | t :: ts, base, 0, _ => by simp [offsetsFor, sumLens]
  | t :: ts, base, i + 1, h => by
    have ih := offsetsFor_getD ts (base + annTokLen t) i (by simpa using h)
    simp only [offsetsFor, List.getD_cons_succ, List.take_succ_cons, ih, sumLens,
      List.map_cons, List.sum_cons]
    omega

/-- C6: the JSON formatter's offset table holds one running character
offset per token (summing `len(original or current text)` in sequence
order from the running base) plus a past-the-end sentinel, and an
annotation's `start_char`/`end_char` are the table entries at `start` and
at `end + 1` minus one. -/
theorem C6_json_offsets (base : Nat) (toks : List AnnTok) (ann : Annotation)
    (h : ann.«end» + 1 ≤ toks.length) (h2 : ann.start ≤ ann.«end») :
    (mkAnnD (offsetsFor base toks) ann).start_char =
      ((base + sumLens (toks.take ann.start) : Nat) : Int) ∧
    (mkAnnD (offsetsFor base toks) ann).end_char =
      ((base + sumLens (toks.take (ann.«end» + 1)) : Nat) : Int) - 1 := by
  constructor
  · show ((offsetsFor base toks).getD ann.start 0 : Int) = _
    rw [offsetsFor_getD toks base ann.start (by omega)]
  · show ((offsetsFor base toks).getD (ann.«end» + 1) 0 : Int) - 1 = _
    rw [offsetsFor_getD toks base (ann.«end» + 1) h]

/-- The spec's JSON-offset example: token original-text lengths `[4,1,2,1]`. -/
def c6toks : List AnnTok :=
  [{ k := 6, x := "Hann", o := "Hann" }, { k := 1, x := " ", o := " " },
   { k := 6, x := "í", o := "í" }, { k := 1, x := " ", o := " " }]

def c6ann : Annotation := { start := 0, «end» := 0, code := "Z", text := "t" }

theorem C6_json_offsets_witness :
    (c6ann.«end» + 1 ≤ c6toks.length) ∧ (c6ann.start ≤ c6ann.«end») ∧
    (mkAnnD (offsetsFor 0 c6toks) c6ann).start_char = 0 ∧
    (mkAnnD (offsetsFor 0 c6toks) c6ann).end_char = 3 :=
  ⟨by decide, by decide,
    ((C6_json_offsets 0 c6toks c6ann (by decide) (by decide)).1).trans (by decide),
    ((C6_json_offsets 0 c6toks c6ann (by decide) (by decide)).2).trans (by decide)⟩

/-! ### wrappers.py: token-level-only formatting (`format_spelling`) -/

/-- The compound date/time/measurement kinds whose values render as a
quoted `|`-joined component list in the CSV encoding. -/
def dateTimeKind (k : Nat) : Bool :=
  k == TOK.DATE || k == TOK.TIME || k == TOK.DATEABS || k == TOK.DATEREL ||
  k == TOK.TIMESTAMP || k == TOK.TIMESTAMPABS || k == TOK.TIMESTAMPREL ||
  k == TOK.TELNO || k == TOK.NUMWLETTER || k == TOK.MEASUREMENT

/-- `quote`: wrap in double quotes, escaping backslashes and quotes; the
empty string becomes a bare pair of quotes. -/
def quote (s : String) : String :=
  if s = "" then "\"\""
  else "\"" ++ ((s.replace "\\" "\\\\").replace "\"" "\\\"") ++ "\""

/-- A Python value as observed by `format_spelling`'s CSV branch: its
interpolated rendering and its truthiness (`val(t, ...) or '\x22\x22'`). -/
structure PyV where
  render : String
  truthy : Bool
deriving Repr, DecidableEq, Inhabited

/-- Python `str()` of a raw token value; reachable only through the
fall-through branches of `val` for kind/value combinations the external
tokenizer does not produce. -/
def TokVal.rawRender : TokVal → String
  | .noneV => "None"
  | .meanings n => "meanings:" ++ toString n
  | .numberV _ r => r
  | .amountV r iso => "(" ++ r ++ ", " ++ iso ++ ")"
  | .punctV s => s
  | .seqV l => "(" ++ ", ".intercalate l ++ ")"
  | .strV s => s

/-- The `val` helper of wrappers.py: the value part of a token, rendered
for interpolation, or `none` (Python `None`). -/
def val (t : CorrectToken) (quote_word : Bool) : Option PyV :=
  if t.val = .noneV then none
  else if t.kind == TOK.WORD || t.kind == TOK.PERSON || t.kind == TOK.ENTITY then
    none
  else if t.kind == TOK.PERCENT || t.kind == TOK.NUMBER || t.kind == TOK.CURRENCY then
    match t.val with
    | .numberV z r => some { render := r, truthy := !z }
    | v => some { render := v.rawRender, truthy := v.truthy }
  else if t.kind == TOK.AMOUNT then
    match t.val with
    | .amountV r iso =>
      if quote_word then some { render := quote (r ++ "|" ++ iso), truthy := true }
      else some { render := "(" ++ r ++ ", " ++ iso ++ ")", truthy := true }
    | v => some { render := v.rawRender, truthy := v.truthy }
  else if t.kind == TOK.S_BEGIN then none
  else if t.kind == TOK.PUNCTUATION then
    let p := t.punctuation
    if quote_word then some { render := quote p, truthy := true }
    else some { render := p, truthy := p != "" }
  else if quote_word && dateTimeKind t.kind then
    match t.val with
    | .seqV parts => some { render := quote ("|".intercalate parts), truthy := true }
    | v => some { render := quote v.rawRender, truthy := true }
  else if quote_word then
    match t.val with
    | .strV s => some { render := quote s, truthy := true }
    | v => some { render := v.rawRender, truthy := v.truthy }
  else some { render := t.val.rawRender, truthy := t.val.truthy }

/-- `TOK.descr`: the kind-name table of the external tokenizer. -/
def descr (k : Nat) : String :=
  if k == TOK.PUNCTUATION then "PUNCTUATION"
  else if k == TOK.TIME then "TIME"
  else if k == TOK.DATE then "DATE"
  else if k == TOK.YEAR then "YEAR"
  else if k == TOK.NUMBER then "NUMBER"
  else if k == TOK.WORD then "WORD"
  else if k == TOK.TELNO then "TELNO"
  else if k == TOK.PERCENT then "PERCENT"
  else if k == TOK.URL then "URL"
  else if k == TOK.ORDINAL then "ORDINAL"
  else if k == TOK.TIMESTAMP then "TIMESTAMP"
  else if k == TOK.CURRENCY then "CURRENCY"
  else if k == TOK.AMOUNT then "AMOUNT"
  else if k == TOK.PERSON then "PERSON"
  else if k == TOK.EMAIL then "EMAIL"
  else if k == TOK.ENTITY then "ENTITY"
  else if k == TOK.DATEABS then "DATEABS"
  else if k == TOK.DATEREL then "DATEREL"
  else if k == TOK.TIMESTAMPABS then "TIMESTAMPABS"
  else if k == TOK.TIMESTAMPREL then "TIMESTAMPREL"
  else if k == TOK.MEASUREMENT then "MEASUREMENT"
  else if k == TOK.NUMWLETTER then "NUMWLETTER"
  else if k == TOK.S_BEGIN then "S_BEGIN"
  else if k == TOK.S_END then "S_END"
  else "UNKNOWN"

/-- JSON string rendering (`json.dumps` with `ensure_ascii=False`): quoted,
with backslash and quote escaped; further control-character escapes are not
exercised by the studied claims. -/
def jsonStr (s : String) : String := quote s

/-- `json.dumps` rendering of a raw token value. -/
def TokVal.jsonRender : TokVal → String
  | .noneV => "null"
  | .meanings n => toString n
  | .numberV _ r => r
  | .amountV r iso => "[" ++ r ++ "," ++ jsonStr iso ++ "]"
  | .punctV s => jsonStr s
  | .seqV l => "[" ++ ",".intercalate (l.map jsonStr) ++ "]"
  | .strV s => jsonStr s

/-- One CSV line of the token-level-only format:
`kind,quoted text,value or empty quotes,quoted error text`. -/
def spellCsvLine (ext : Externals) (t : CorrectToken) : String :=
  toString t.kind ++ "," ++ quote t.txt ++ "," ++
    (match val t true with
     | some pv => if pv.truthy then pv.render else "\"\""
     | none => "\"\"") ++ "," ++
    quote (match t.error with | some e => ext.err_str e | none => "")

/-- One JSON line of the token-level-only format: keys `k`, `t`, then `v`
for non-word kinds with a value, then `e` for tokens carrying an error. -/
def spellJsonLine (ext : Externals) (t : CorrectToken) : String :=
  let base := "\x7b\"k\":" ++ jsonStr (descr t.kind)
  let base := base ++ ",\"t\":" ++ jsonStr t.txt
  let base :=
    if !(t.kind == TOK.WORD || t.kind == TOK.PERSON || t.kind == TOK.ENTITY) &&
        (val t false).isSome then
      base ++ ",\"v\":" ++ t.val.jsonRender
    else base
  let base :=
    match t.error with
    | some e => base ++ ",\"e\":" ++ ext.err_dict e
    | none => base
  base ++ "\x7d"

/-- `format_spelling`: the token-level-only output. The state threaded over
sentences is `(unisum, annlist)`; the per-sentence `allsum` is flushed into
`unisum` at the end of each sentence. An unrecognized format matches no
branch and contributes nothing. -/
def format_spelling (ext : Externals) (results : CorrectionResult)
    (format : String) (spaced normalize_opt print_annotations print_all : Bool) :
    String :=
  let to_text : List CorrectToken → String :=
    if spaced then (if normalize_opt then ext.norm_text_from else ext.text_from)
    else ext.detok
  let fin := results.sentences.foldl (fun st sent =>
    let unisum := st.1
    let annlist := st.2
    if format = "text" then
      let txt := to_text sent.tokens
      let annlist :=
        if print_annotations then
          annlist ++ sent.tokens.filterMap (fun t => t.error.map ext.err_str)
        else annlist
      if print_annotations && !print_all && !annlist.isEmpty then
        (unisum ++ [txt ++ "\n" ++ "\n".intercalate annlist], [])
      else (unisum ++ [txt], annlist)
    else
      let allsum := (sent.tokens.map (fun t =>
        if format = "csv" then
          if t.txt ≠ "" then [spellCsvLine ext t]
          else if t.kind == TOK.S_END then ["0,\"\",\"\""]
          else []
        else if format = "json" then [spellJsonLine ext t]
        else [])).flatten
      (unisum ++ allsum, annlist)) (([] : List String), ([] : List String))
  if print_all then
    let unistr := " ".intercalate fin.1
    if !fin.2.isEmpty then unistr ++ "\n" ++ "\n".intercalate fin.2 else unistr
  else "\n".intercalate fin.1

/-! ### wrappers.py: `GreynirCorrectAPI.correct` and `check_errors` -/

/-- `GreynirCorrectAPI.correct`, given the already-computed outputs of its
external collaborators: `corrected_tokens` from the spelling pipeline,
`check_sentences` from the full grammar check (`parse_all_tokens` +
`annotate`), the pre-rendered Flesch/rare-word results, and the pre-filter
classifier as an optional function. The skip paths return a single
unannotated sentence and perform no ignore-rule filtering. -/
def correct (do_grammar_check : Bool)
    (sentence_prefilter : Option (List CorrectToken → Bool))
    (corrected_tokens : List CorrectToken)
    (check_sentences : List CorrectedSentence)
    (flesch_result : Option (String × String))
    (rare_words : Option (List (String × String)))
    (ignore_rules : List String) : CorrectionResult :=
  if do_grammar_check = false then
    { sentences := [{ tokens := corrected_tokens }],
      flesch_result := flesch_result, rare_words := rare_words }
  else
    match sentence_prefilter with
    | some classify =>
      if classify corrected_tokens = false then
        { sentences := [{ tokens := corrected_tokens }],
          flesch_result := flesch_result, rare_words := rare_words }
      else
        CorrectionResult.filter_annotations
          { sentences := check_sentences, flesch_result := flesch_result,
            rare_words := rare_words } ignore_rules
    | none =>
      CorrectionResult.filter_annotations
        { sentences := check_sentences, flesch_result := flesch_result,
          rare_words := rare_words } ignore_rules

/-- `check_errors`, downstream of the external correction pipeline (whose
output is the `results` argument): raises on absent input, dispatches to
the grammar or spelling formatter, and appends the Flesch score and rare
words to the output. -/
def check_errors (ext : Externals) (input : Option (List String))
    (format : String)
    (all_errors spaced normalize_opt annotations_opt print_all : Bool)
    (results : CorrectionResult) : Except String String :=
  match input with
  | none => .error "No input text"
  | some _ => do
    let text_results ←
      if all_errors then
        format_grammar ext results annotations_opt print_all format
      else
        pure (format_spelling ext results format spaced normalize_opt
          annotations_opt print_all)
    let text_results :=
      match results.flesch_result with
      | some fr => text_results ++ "\nFlesch score: " ++ fr.1 ++ " (" ++ fr.2 ++ ")"
      | none => text_results
    let text_results :=
      match results.rare_words with
      | some rws =>
        rws.foldl (fun acc wp => acc ++ "\t" ++ wp.1 ++ ": " ++ wp.2 ++ "\n")
          (text_results ++ "\nRare words:\n")
      | none => text_results
    pure text_results

/-! ### Claim C10 -/

theorem C10_skip_annotations (ext : Externals) (dg : Bool)
    (cls : Option (List CorrectToken → Bool)) (toks : List CorrectToken)
    (cks : List CorrectedSentence) (fl : Option (String × String))
    (rw : Option (List (String × String))) (ir : List String)
    (fmt : String) (pa pall : Bool)
    (h : dg = false ∨ ∃ f, cls = some f ∧ f toks = false) :
    (∀ s ∈ (correct dg cls toks cks fl rw ir).sentences, s.annotations = none) ∧
    format_grammar ext (correct dg cls toks cks fl rw ir) pa pall fmt =
      .error "Annotations not set in sentence which was supposedly parsed" := by
  have hres : correct dg cls toks cks fl rw ir =
      { sentences := [{ tokens := toks }], flesch_result := fl, rare_words := rw } := by
    rcases h with h | ⟨f, hf, hval⟩
    · simp only [correct]
      rw [if_pos h]
    · simp only [correct]
      cases dg with
      | false => rw [if_pos rfl]
      | true =>
        rw [if_neg (by simp)]
        simp only [hf]
        rw [if_pos hval]
  rw [hres]
  refine ⟨fun s hs => ?_, rfl⟩
  rw [List.mem_singleton] at hs
  subst hs
  rfl

/-- Trivial instantiations of the external functions, for witnesses and
counterexamples. -/
def trivExt : Externals :=
  { correct_spaces := fun s => s, detok := fun _ => "", text_from := fun _ => "",
    norm_text_from := fun _ => "", err_str := fun _ => "", err_dict := fun _ => "",
    ann_str := fun _ => "", json_dump := fun _ => "" }

theorem C10_skip_annotations_witness :
    (∀ s ∈ (correct false none [] [] none none []).sentences,
      s.annotations = none) ∧
    format_grammar trivExt (correct false none [] [] none none []) false false
        "json" =
      .error "Annotations not set in sentence which was supposedly parsed" :=
  C10_skip_annotations trivExt false none [] [] none none [] "json" false false
    (Or.inl rfl)

/-! ### Claim C8 -/

theorem sentResList_ok (ext : Externals) :
    ∀ ss : List CorrectedSentence, (∀ s ∈ ss, s.annotations ≠ none) →
      ∃ l, sentResList ext ss = Except.ok l
  | [], _ => ⟨[], rfl⟩
  | s :: rest, h => by
    obtain ⟨toks, aopt, terms⟩ := s
    cases aopt with
    | none => exact absurd (h _ (List.mem_cons_self _ _)) (by simp)
    | some anns0 =>
      obtain ⟨l, hl⟩ :=
        sentResList_ok ext rest (fun x hx => h x (List.mem_cons_of_mem _ hx))
      exact ⟨_, by rw [sentResList, hl]; rfl⟩

/-- C8 (amended): `check_errors` raises a descriptive error when `input` is
absent; on the full-grammar path (`all_errors = true`) it raises when the
format is not one of the four recognized values (given every sentence
carries an annotation list); on the token-level-only path
(`all_errors = false`) it never raises — an unrecognized format matches no
output branch there and yields a string built from no sentence content
rather than an error. -/
theorem C8_check_errors (ext : Externals) (format : String)
    (spaced normalize_opt annotations_opt print_all : Bool)
    (results : CorrectionResult) (inp : List String) :
    (∀ (all_errors : Bool) (results2 : CorrectionResult),
      check_errors ext none format all_errors spaced normalize_opt
        annotations_opt print_all results2 = .error "No input text") ∧
    (((format = "text" ∨ format = "json" ∨ format = "csv" ∨ format = "m2") →
        False) →
      (∀ s ∈ results.sentences, s.annotations ≠ none) →
      check_errors ext (some inp) format true spaced normalize_opt
        annotations_opt print_all results =
        .error ("Tried to format with invalid format: " ++ format)) ∧
    (∃ out, check_errors ext (some inp) format false spaced normalize_opt
        annotations_opt print_all results = .ok out) := by
  refine ⟨fun _ _ => rfl, ?_, ⟨_, rfl⟩⟩
  intro hf hanns
  obtain ⟨l, hl⟩ := sentResList_ok ext results.sentences hanns
  have h1 : ¬ format = "text" := fun h => hf (Or.inl h)
  have h2 : ¬ format = "json" := fun h => hf (Or.inr (Or.inl h))
  have h3 : ¬ format = "csv" := fun h => hf (Or.inr (Or.inr (Or.inl h)))
  have h4 : ¬ format = "m2" := fun h => hf (Or.inr (Or.inr (Or.inr h)))
  simp only [check_errors, format_grammar, hl, format_output, if_neg h1,
    if_neg h2, if_neg h3, if_neg h4]
  rfl

/-- A minimal annotated result for the C8 witness. -/
def c8resAnn : CorrectionResult :=
  { sentences := [{ tokens := [], annotations := some [] }] }

theorem C8_check_errors_witness :
    check_errors trivExt none "xml" true false false false false c8resAnn =
      .error "No input text" ∧
    ((("xml" : String) = "text" ∨ ("xml" : String) = "json" ∨
        ("xml" : String) = "csv" ∨ ("xml" : String) = "m2") → False) ∧
    (∀ s ∈ c8resAnn.sentences, s.annotations ≠ none) ∧
    check_errors trivExt (some ["x"]) "xml" true false false false false
        c8resAnn =
      .error ("Tried to format with invalid format: " ++ "xml") :=
  ⟨(C8_check_errors trivExt "xml" false false false false c8resAnn ["x"]).1
      true c8resAnn,
    by decide, by decide,
    (C8_check_errors trivExt "xml" false false false false c8resAnn ["x"]).2.1
      (by decide) (by decide)⟩

/-- A result with an unannotated sentence, as produced by the token-level-only
path, for the C8 counterexample. -/
def c8res : CorrectionResult := { sentences := [{ tokens := [] }] }

/-- C8 counterexample: with `all_errors = false` and the unrecognized
format `"xml"`, `check_errors` does **not** raise — it returns the empty
string (`format_spelling` has no branch for the format and accumulates
nothing), refuting the claim that an unrecognized format always raises a
descriptive error. -/
theorem C8_counterexample :
    ((("xml" : String) = "text" ∨ ("xml" : String) = "json" ∨
        ("xml" : String) = "csv" ∨ ("xml" : String) = "m2") → False) ∧
    check_errors trivExt (some ["x"]) "xml" false false false false false
        c8res = .ok "" := by
  constructor
  · decide
  · rfl
